import Mathlib

/-!
Verification of the RepaymentCalculator amortization engine
(src/borrow/common.py, src/borrow/mortgage.py, src/borrow/loan.py).

Shallow embedding conventions:
* Currency arithmetic uses ℚ (the Python code uses floats; the engine's
  algebra is what is verified, not rounding).
* Calendar dates are modelled as a month index (ℕ): the schedule built by
  `rrule(freq=MONTHLY)` from one month after the bound start up to and
  including the start plus `duration` years is the index range
  `start + 1 .. start + 12*duration`, and the yearly anniversaries built by
  `rrule(freq=YEARLY, count=duration-1)` are `start + 12*j` for
  `j = 1 .. duration-1`.
* A Python value that may be a number or a percent-suffixed string is the
  inductive `NumStr`: `num q` is a Python int/float, `pstr neg mag` is the
  string "mag%" with an optional leading sign.  A Python call that raises
  is modelled as `Option.none`.
-/

namespace Borrow

/-- A Python value that is either numeric or a (signed) percent-suffixed
string, as accepted for `rate`, `overpay` and `downpayment`. -/
inductive NumStr where
  | num (q : ℚ)
  | pstr (neg : Bool) (mag : ℚ)
deriving DecidableEq, Repr

/-- common.sanitize_percent.  For a string the trailing percent sign is
checked and the numeric text before it is divided by 100.  For a numeric
input the subscript `value[-1]` raises TypeError (numbers are not
subscriptable), modelled as `none`. -/
def sanitize_percent : NumStr → Option ℚ
  | .num _ => none
  | .pstr neg mag => some ((if neg then -mag else mag) / 100)

/-- common.sign_magnitude: a numeric value splits into its sign multiplier
and absolute value; a string has a leading sign character stripped. -/
def sign_magnitude : NumStr → ℚ × NumStr
  | .num q => (if q < 0 then -1 else 1, .num |q|)
  | .pstr neg mag => (if neg then -1 else 1, .pstr false mag)

/-- mortgage.__init__: fields are stored exactly as passed, in the
constructor's argument order; no validation is performed. -/
structure Mortgage where
  rate : ℚ
  duration : ℕ
  repayment : ℚ
  overpay : ℚ
  downpayment : NumStr
deriving DecidableEq, Repr

/-- The list of yearly anniversary dates used by mortgage.calculate_overpay:
`rrule(freq=YEARLY, dtstart=start+1y, count=duration-1)`, i.e. the bound
start plus `12*j` months for `j = 1 .. duration - 1`. -/
def anniversaries (m : Mortgage) (start : ℕ) : List ℕ :=
  (List.range (m.duration - 1)).map fun j => start + 12 * (j + 1)

/-- mortgage.calculate_overpay: on an anniversary date the lump is
`outstanding * overpay` capped at `outstanding`; otherwise 0. -/
def calculate_overpay (m : Mortgage) (start date : ℕ) (outstanding : ℚ) : ℚ :=
  if date ∈ anniversaries m start then
    let lump := outstanding * m.overpay
    if outstanding > lump then lump else outstanding
  else 0

/-- mortgage.calculate_repayment: the nominal repayment is `repayment`
capped at the (post-interest) outstanding; when `overpay` is truthy the
overpay on the post-repayment balance is added. -/
def calculate_repayment (m : Mortgage) (start date : ℕ) (outstanding : ℚ) : ℚ :=
  let repayment := if outstanding > m.repayment then m.repayment else outstanding
  if m.overpay ≠ 0 then
    repayment + calculate_overpay m start date (outstanding - repayment)
  else repayment

/-- mortgage.calculate_interest: `outstanding * (rate / 12)`. -/
def calculate_interest (m : Mortgage) (outstanding : ℚ) : ℚ :=
  outstanding * (m.rate / 12)

/-- mortgage.calculate_downpayment: split the stored downpayment into sign
and magnitude; a percent magnitude resolves against the pre-downpayment
outstanding; the sign is re-applied. -/
def calculate_downpayment (m : Mortgage) (outstanding : ℚ) : ℚ :=
  match sign_magnitude m.downpayment with
  | (sign, .pstr _ mag) => mag / 100 * outstanding * sign
  | (sign, .num q) => q * sign

/-- The local state of mortgage.repay's monthly loop: the instrument's own
outstanding copy, the accumulated `interests` and `repayments`, the index
of the last date bound by the loop (`0` when no iteration has run), and
whether the loop hit its `break`. -/
structure MState where
  out : ℚ
  ints : ℚ
  reps : ℚ
  periods : ℕ
  stopped : Bool
deriving DecidableEq, Repr

/-- One iteration of mortgage.repay's loop at month offset `k` from the
bound start: accrue interest; if the balance is then positive make the
period's repayment, else break without repaying. -/
def stepPeriod (m : Mortgage) (start k : ℕ) (st : MState) : MState :=
  if st.stopped then st
  else
    let interest := calculate_interest m st.out
    let out1 := st.out + interest
    if out1 > 0 then
      let repayment := calculate_repayment m start (start + k) out1
      ⟨out1 - repayment, st.ints + interest, st.reps + repayment, k, false⟩
    else
      ⟨out1, st.ints + interest, st.reps, k, true⟩

/-- Run `n` successive loop iterations starting at month offset `k`. -/
def runFrom (m : Mortgage) (start : ℕ) : ℕ → ℕ → MState → MState
  | _, 0, st => st
  | k, n + 1, st => runFrom m start (k + 1) n (stepPeriod m start k st)

/-- The balance entering the monthly loop of mortgage.repay: the starting
balance minus the resolved downpayment, before any interest accrues. -/
def preAccrualBalance (m : Mortgage) (outstanding : ℚ) : ℚ :=
  outstanding - calculate_downpayment m outstanding

/-- mortgage.repay's loop state after the full schedule of
`12 * duration` monthly dates (offsets `1 .. 12*duration`). -/
def repayState (m : Mortgage) (outstanding : ℚ) (start : ℕ) : MState :=
  runFrom m start 1 (12 * m.duration) ⟨preAccrualBalance m outstanding, 0, 0, 0, false⟩

/-- mortgage.repay's return value `(interests, repayments + downpayment,
date)`.  The date is the last loop date.  `date` is a for-loop target and
hence a local variable of repay: when the schedule is empty no iteration
ever binds it and the `return` raises UnboundLocalError instead of
producing a value — modelled as `none`. -/
def repay (m : Mortgage) (outstanding : ℚ) (start : ℕ) : Option (ℚ × ℚ × ℕ) :=
  let st := repayState m outstanding start
  if st.periods = 0 then none
  else some (st.ints, st.reps + calculate_downpayment m outstanding,
    start + st.periods)

/-- loan.payoff's while loop: pop each mortgage in order, delegate to
repay, update `outstanding -= (decrease - increase)`, stop when the
balance is no longer positive.  An exception raised inside repay (empty
schedule) propagates out of payoff, modelled as `none`. -/
def payoffGo : ℚ → ℕ → List Mortgage → Option ℚ
  | b, _, [] => some b
  | b, s, m :: ms =>
    match repay m b s with
    | none => none
    | some (inc, dec, cur) =>
      let b1 := b - (dec - inc)
      if b1 > 0 then payoffGo b1 cur ms else some b1

/-- Trace predicate over loan.payoff's loop: every instrument actually
processed returns (rather than raises), with a repaid total at least its
interest total (its net repayment is non-negative). -/
def payoffNetOk : ℚ → ℕ → List Mortgage → Bool
  | _, _, [] => true
  | b, s, m :: ms =>
    match repay m b s with
    | none => false
    | some (inc, dec, cur) =>
      decide (inc ≤ dec) &&
        (let b1 := b - (dec - inc)
         if b1 > 0 then payoffNetOk b1 cur ms else true)

/-! ### Generic loop lemmas -/

/-- The loop on an empty schedule leaves the state unchanged. -/
theorem runFrom_zero (m : Mortgage) (s k : ℕ) (st : MState) :
    runFrom m s k 0 st = st := rfl

/-- One unfolding of the loop. -/
theorem runFrom_succ (m : Mortgage) (s k n : ℕ) (st : MState) :
    runFrom m s k (n + 1) st = runFrom m s (k + 1) n (stepPeriod m s k st) := rfl

/-- A stopped state is left untouched by any further iterations. -/
theorem runFrom_stopped (m : Mortgage) (s : ℕ) :
    ∀ (n k : ℕ) (st : MState), st.stopped = true → runFrom m s k n st = st := by
  intro n
  induction n with
  | zero => intro k st _; rfl
  | succ n ih =>
    intro k st h
    rw [runFrom, stepPeriod, if_pos h]
    exact ih (k + 1) st h

/-- Conservation law of the loop body: the instrument's local outstanding
always equals its initial value plus accumulated interest minus
accumulated repayments. -/
theorem runFrom_net (m : Mortgage) (s : ℕ) :
    ∀ (n k : ℕ) (st : MState),
      (runFrom m s k n st).out - (runFrom m s k n st).ints + (runFrom m s k n st).reps
        = st.out - st.ints + st.reps := by
  intro n
  induction n with
  | zero => intro k st; rfl
  | succ n ih =>
    intro k st
    rw [runFrom, ih (k + 1) (stepPeriod m s k st)]
    rw [stepPeriod]
    split
    · rfl
    · dsimp only
      split
      · dsimp only; ring
      · dsimp only; ring

/-- A stopped state passes through one iteration unchanged. -/
theorem stepPeriod_stopped (m : Mortgage) (s k : ℕ) (st : MState)
    (hstop : st.stopped = true) : stepPeriod m s k st = st := by
  rw [stepPeriod, if_pos hstop]

/-- An iteration from a live state with positive post-interest balance
makes the period's repayment. -/
theorem stepPeriod_live (m : Mortgage) (s k : ℕ) (st : MState)
    (hstop : st.stopped = false)
    (hpos : st.out + calculate_interest m st.out > 0) :
    stepPeriod m s k st
      = ⟨st.out + calculate_interest m st.out
            - calculate_repayment m s (s + k) (st.out + calculate_interest m st.out),
          st.ints + calculate_interest m st.out,
          st.reps + calculate_repayment m s (s + k)
            (st.out + calculate_interest m st.out),
          k, false⟩ := by
  rw [stepPeriod, if_neg (by simp [hstop]), if_pos hpos]

/-- An iteration from a live state with non-positive post-interest balance
takes the break branch. -/
theorem stepPeriod_break (m : Mortgage) (s k : ℕ) (st : MState)
    (hstop : st.stopped = false)
    (hpos : ¬ st.out + calculate_interest m st.out > 0) :
    stepPeriod m s k st
      = ⟨st.out + calculate_interest m st.out,
          st.ints + calculate_interest m st.out, st.reps, k, true⟩ := by
  rw [stepPeriod, if_neg (by simp [hstop]), if_neg hpos]

/-- A live iteration records the current month offset as the last bound
loop date. -/
theorem stepPeriod_periods (m : Mortgage) (s k : ℕ) (st : MState)
    (hstop : st.stopped = false) : (stepPeriod m s k st).periods = k := by
  by_cases hpos : st.out + calculate_interest m st.out > 0
  · rw [stepPeriod_live m s k st hstop hpos]
  · rw [stepPeriod_break m s k st hstop hpos]

/-- The last bound loop date stays below the schedule's end, and once at
least one iteration runs on a live state it is at least the first offset. -/
theorem runFrom_periods_bound (m : Mortgage) (s : ℕ) :
    ∀ (n k : ℕ) (st : MState), st.periods < k →
      (runFrom m s k n st).periods < k + n ∧
        (st.stopped = false → 1 ≤ n → k ≤ (runFrom m s k n st).periods) := by
  intro n
  induction n with
  | zero =>
    intro k st h
    rw [runFrom_zero]
    exact ⟨by omega, fun _ h1 => absurd h1 (by omega)⟩
  | succ n ih =>
    intro k st h
    rw [runFrom_succ]
    by_cases hs : st.stopped = true
    · rw [stepPeriod_stopped m s k st hs]
      obtain ⟨h1, _⟩ := ih (k + 1) st (by omega)
      refine ⟨by omega, fun hf _ => ?_⟩
      rw [hf] at hs
      exact absurd hs (by simp)
    · have hs : st.stopped = false := by
        cases hb : st.stopped
        · rfl
        · exact absurd hb hs
      have hp1 : (stepPeriod m s k st).periods = k := stepPeriod_periods m s k st hs
      obtain ⟨h1, h2⟩ := ih (k + 1) (stepPeriod m s k st) (by omega)
      refine ⟨by omega, fun _ _ => ?_⟩
      by_cases hs1 : (stepPeriod m s k st).stopped = true
      · rw [runFrom_stopped m s n (k + 1) (stepPeriod m s k st) hs1, hp1]
      · have hs1 : (stepPeriod m s k st).stopped = false := by
          cases hb : (stepPeriod m s k st).stopped
          · rfl
          · exact absurd hb hs1
        cases n with
        | zero => rw [runFrom_zero, hp1]
        | succ n => have := h2 hs1 (by omega); omega

/-- The overpay lump is between 0 and the balance it is computed from,
whenever that balance and the overpay factor are non-negative. -/
theorem calculate_overpay_nonneg_le (m : Mortgage) (s d : ℕ) (o : ℚ)
    (ho : 0 ≤ o) (hov : 0 ≤ m.overpay) :
    0 ≤ calculate_overpay m s d o ∧ calculate_overpay m s d o ≤ o := by
  rw [calculate_overpay]
  split
  · dsimp only
    split
    · exact ⟨mul_nonneg ho hov, by linarith⟩
    · exact ⟨ho, le_refl o⟩
  · exact ⟨le_refl 0, ho⟩

/-- Bounds on one period's total repayment (nominal capped at the
post-interest balance, plus any overpay lump), for a positive
post-interest balance `o`, non-negative nominal repayment and
non-negative overpay factor. -/
theorem calculate_repayment_bounds (m : Mortgage) (s d : ℕ) (o : ℚ)
    (ho : 0 < o) (hrep0 : 0 ≤ m.repayment) (hov : 0 ≤ m.overpay) :
    0 ≤ calculate_repayment m s d o ∧
      0 ≤ o - calculate_repayment m s d o ∧
      (m.repayment < o → m.repayment ≤ calculate_repayment m s d o) ∧
      (o ≤ m.repayment → calculate_repayment m s d o = o) := by
  rw [calculate_repayment]
  by_cases hc : o > m.repayment
  · rw [if_pos hc]
    by_cases hz : m.overpay = 0
    · rw [if_neg (by simp [hz])]
      exact ⟨hrep0, by linarith, fun _ => le_refl _, fun h => absurd hc (not_lt.2 h)⟩
    · rw [if_pos hz]
      obtain ⟨hl0, hl1⟩ := calculate_overpay_nonneg_le m s d (o - m.repayment)
        (by linarith) hov
      exact ⟨by linarith, by linarith, fun _ => by linarith,
        fun h => absurd hc (not_lt.2 h)⟩
  · rw [if_neg hc]
    have hoz : o - o = 0 := by ring
    by_cases hz : m.overpay = 0
    · rw [if_neg (by simp [hz])]
      exact ⟨le_of_lt ho, by linarith, fun h => absurd h hc, fun _ => rfl⟩
    · rw [if_pos hz]
      obtain ⟨hl0, hl1⟩ := calculate_overpay_nonneg_le m s d (o - o) (by linarith) hov
      have hlz : calculate_overpay m s d (o - o) = 0 := le_antisymm (by linarith) hl0
      rw [hlz]
      exact ⟨by linarith, by linarith, fun h => absurd h hc, fun _ => by ring⟩

/-! ### C1 -/

/-- C1: whenever mortgage.repay returns `(interest, repaid, date)`, the
Loan Orchestrator's reconciliation `outstanding -= (repaid - interest)`
lands exactly on the balance the instrument tracked internally (start
minus downpayment, plus each period's interest, minus each period's
repayment). -/
theorem orchestrator_update_matches_internal (m : Mortgage) (b : ℚ) (s : ℕ)
    (inc dec : ℚ) (d : ℕ) (h : repay m b s = some (inc, dec, d)) :
    b - (dec - inc) = (repayState m b s).out := by
  have hnet := runFrom_net m s (12 * m.duration) 1
    ⟨preAccrualBalance m b, 0, 0, 0, false⟩
  have e : runFrom m s 1 (12 * m.duration) ⟨preAccrualBalance m b, 0, 0, 0, false⟩
      = repayState m b s := rfl
  rw [e] at hnet
  simp only [preAccrualBalance] at hnet
  simp only [repay] at h
  by_cases hp : (repayState m b s).periods = 0
  · rw [if_pos hp] at h
    simp at h
  · rw [if_neg hp] at h
    simp only [Option.some.injEq, Prod.mk.injEq] at h
    obtain ⟨h1, h2, _⟩ := h
    linarith

/-- Witness for C1: a 1-year rate-0 instrument with repayment 1 on
balance 100 returns (0, 12, 12), and 100 - (12 - 0) = 88 is the loop's
internal final balance. -/
theorem orchestrator_update_matches_internal_witness :
    repay ⟨0, 1, 1, 0, .num 0⟩ 100 0 = some (0, 12, 12) ∧
      (100 : ℚ) - (12 - 0) = (repayState ⟨0, 1, 1, 0, .num 0⟩ 100 0).out :=
  ⟨by norm_num [repay, repayState, runFrom_succ, runFrom_zero, stepPeriod,
      calculate_interest, calculate_repayment, calculate_overpay, anniversaries,
      preAccrualBalance, calculate_downpayment, sign_magnitude],
    orchestrator_update_matches_internal ⟨0, 1, 1, 0, .num 0⟩ 100 0 0 12 12
      (by norm_num [repay, repayState, runFrom_succ, runFrom_zero, stepPeriod,
        calculate_interest, calculate_repayment, calculate_overpay, anniversaries,
        preAccrualBalance, calculate_downpayment, sign_magnitude])⟩

/-! ### C2 -/

/-- C2 (code bug witnessed): with the flat overpay amount 1500 configured
(as load_mortgages' docstring allows) and post-repayment balance 10000 on
the first anniversary (month 12 of a 5-year term), calculate_overpay
returns min(10000 * 1500, 10000) = 10000 instead of the flat 1500; one
month off the anniversary it returns 0. -/
theorem calculate_overpay_flat_misapplied :
    calculate_overpay ⟨0, 5, 100, 1500, .num 0⟩ 0 12 10000 = 10000 ∧
      calculate_overpay ⟨0, 5, 100, 1500, .num 0⟩ 0 13 10000 = 0 := by
  have h12 : 12 ∈ anniversaries ⟨0, 5, 100, 1500, .num 0⟩ 0 := by decide
  have h13 : ¬ 13 ∈ anniversaries ⟨0, 5, 100, 1500, .num 0⟩ 0 := by decide
  rw [calculate_overpay, calculate_overpay, if_pos h12, if_neg h13]
  norm_num

/-! ### C3 -/

/-- C3 counterexample: a period of repay at non-negative balance 1200 with
rate 1 (≥ 0) and monthly repayment 1: the interest step adds 100 and the
repayment step removes only 1, so the post-repayment balance 1299 exceeds
the pre-accrual balance 1200. -/
theorem repay_step_not_monotone :
    (0 : ℚ) ≤ 1200 ∧ 0 ≤ (Mortgage.mk 1 25 1 0 (.num 0)).rate ∧
      1200 < (stepPeriod (Mortgage.mk 1 25 1 0 (.num 0)) 0 1
          ⟨1200, 0, 0, 0, false⟩).out := by
  norm_num [stepPeriod, calculate_interest, calculate_repayment,
    calculate_overpay, anniversaries]

/-- C3 (amended): for a period of repay starting from a non-stopped state
with non-negative balance, rate ≥ 0, nominal repayment ≥ 0, overpay
factor ≥ 0, and the nominal repayment covering the period's interest
`balance * rate / 12`, the interest step does not decrease the balance,
the repayment step does not increase it past the post-interest balance,
and the post-repayment balance is at most the pre-accrual balance. -/
theorem repay_step_monotone (m : Mortgage) (s k : ℕ) (st : MState)
    (hstop : st.stopped = false) (hb : 0 ≤ st.out) (hr : 0 ≤ m.rate)
    (hrep0 : 0 ≤ m.repayment) (hov : 0 ≤ m.overpay)
    (hcov : st.out * (m.rate / 12) ≤ m.repayment) :
    st.out ≤ st.out + calculate_interest m st.out ∧
      (stepPeriod m s k st).out ≤ st.out + calculate_interest m st.out ∧
      (stepPeriod m s k st).out ≤ st.out := by
  have hie : calculate_interest m st.out = st.out * (m.rate / 12) := rfl
  have hi : 0 ≤ calculate_interest m st.out := by
    rw [hie]; positivity
  refine ⟨by linarith, ?_⟩
  rw [stepPeriod, if_neg (by simp [hstop])]
  dsimp only
  by_cases hpos : st.out + calculate_interest m st.out > 0
  · rw [if_pos hpos]
    dsimp only
    obtain ⟨h1, h2, h3, h4⟩ := calculate_repayment_bounds m s (s + k)
      (st.out + calculate_interest m st.out) hpos hrep0 hov
    constructor
    · linarith
    · by_cases hcase : m.repayment < st.out + calculate_interest m st.out
      · have := h3 hcase
        linarith [hie ▸ hcov]
      · rw [h4 (le_of_not_lt hcase)]
        linarith
  · rw [if_neg hpos]
    push_neg at hpos
    refine ⟨le_refl _, ?_⟩
    show st.out + calculate_interest m st.out ≤ st.out
    linarith

/-- Witness for C3: rate 0, monthly repayment 5, balance 100 satisfy all
hypotheses; one period keeps the balance at or below 100. -/
theorem repay_step_monotone_witness :
    (100 : ℚ) ≤ 100 + calculate_interest (Mortgage.mk 0 1 5 0 (.num 0)) 100 ∧
      (stepPeriod (Mortgage.mk 0 1 5 0 (.num 0)) 0 1 ⟨100, 0, 0, 0, false⟩).out
          ≤ 100 + calculate_interest (Mortgage.mk 0 1 5 0 (.num 0)) 100 ∧
      (stepPeriod (Mortgage.mk 0 1 5 0 (.num 0)) 0 1 ⟨100, 0, 0, 0, false⟩).out
          ≤ 100 :=
  repay_step_monotone (Mortgage.mk 0 1 5 0 (.num 0)) 0 1 ⟨100, 0, 0, 0, false⟩
    rfl (by norm_num) (by norm_num) (by norm_num) (by norm_num) (by norm_num)

/-! ### C6 -/

/-- C6 (code bug witnessed): sanitize_percent subscripts its argument
unconditionally, so the numeric input 0.1 raises TypeError (`none`)
instead of being returned unchanged, while the percent-string form "10%"
correctly yields 1/10. -/
theorem sanitize_percent_numeric_raises :
    sanitize_percent (.num (1 / 10)) = none ∧
      sanitize_percent (.pstr false 10) = some (1 / 10) := by
  refine ⟨rfl, ?_⟩
  rw [sanitize_percent]
  norm_num

/-! ### C7 -/

/-- C7 (code bug witnessed): mortgage.__init__ performs no validation:
a negative rate, zero term and negative nominal repayment are stored
verbatim and construction succeeds. -/
theorem mortgage_init_no_validation :
    (Mortgage.mk (-5) 0 (-100) 0 (.num 0)).rate = -5 ∧
      (Mortgage.mk (-5) 0 (-100) 0 (.num 0)).duration = 0 ∧
      (Mortgage.mk (-5) 0 (-100) 0 (.num 0)).repayment = -100 :=
  ⟨rfl, rfl, rfl⟩

/-! ### C9 -/

/-- C9: calculate_downpayment resolves a percent-suffixed magnitude as the
fraction times the pre-downpayment outstanding with the sign re-applied,
passes numeric values through signed, and repay's pre-accrual balance is
the outstanding minus this amount: "10%" of 100000 leaves 90000, and a
negative numeric downpayment strictly increases the balance. -/
theorem calculate_downpayment_spec (r rp ov b mag q : ℚ) (d : ℕ) (hq : 0 < q) :
    calculate_downpayment ⟨r, d, rp, ov, .pstr false mag⟩ b = mag / 100 * b ∧
      calculate_downpayment ⟨r, d, rp, ov, .pstr true mag⟩ b = -(mag / 100 * b) ∧
      calculate_downpayment ⟨r, d, rp, ov, .num q⟩ b = q ∧
      preAccrualBalance ⟨r, d, rp, ov, .pstr false 10⟩ 100000 = 90000 ∧
      b < preAccrualBalance ⟨r, d, rp, ov, .num (-q)⟩ b := by
  have hqn : ¬ q < 0 := not_lt.2 hq.le
  have hneg : -q < 0 := neg_lt_zero.mpr hq
  have h1 : ∀ mg b0 : ℚ,
      calculate_downpayment ⟨r, d, rp, ov, .pstr false mg⟩ b0 = mg / 100 * b0 := by
    intro mg b0
    simp [calculate_downpayment, sign_magnitude]
  have h2 : calculate_downpayment ⟨r, d, rp, ov, .pstr true mag⟩ b
      = -(mag / 100 * b) := by
    simp [calculate_downpayment, sign_magnitude]
  have h3 : calculate_downpayment ⟨r, d, rp, ov, .num q⟩ b = q := by
    simp [calculate_downpayment, sign_magnitude, hqn, abs_of_pos hq]
  have h5 : calculate_downpayment ⟨r, d, rp, ov, .num (-q)⟩ b = -q := by
    simp [calculate_downpayment, sign_magnitude, hneg, abs_of_pos hq]
  refine ⟨h1 mag b, h2, h3, ?_, ?_⟩
  · rw [preAccrualBalance, h1 10 100000]
    norm_num
  · rw [preAccrualBalance, h5]
    linarith

/-- Witness for C9 at concrete values: rate 0, 25-year term, repayment
700, overpay 0, magnitude 10, numeric downpayment 5000, balance 100000. -/
theorem calculate_downpayment_spec_witness :
    calculate_downpayment ⟨0, 25, 700, 0, .pstr false 10⟩ 100000
        = 10 / 100 * 100000 ∧
      calculate_downpayment ⟨0, 25, 700, 0, .pstr true 10⟩ 100000
        = -(10 / 100 * 100000) ∧
      calculate_downpayment ⟨0, 25, 700, 0, .num 5000⟩ 100000 = 5000 ∧
      preAccrualBalance ⟨0, 25, 700, 0, .pstr false 10⟩ 100000 = 90000 ∧
      (100000 : ℚ)
        < preAccrualBalance ⟨0, 25, 700, 0, .num (-5000)⟩ 100000 :=
  calculate_downpayment_spec 0 700 0 100000 10 5000 25 (by norm_num)

/-! ### C8 -/

/-- C8 counterexample: rate 0 satisfies rate ≥ 0, yet calculate_interest
is constant (not strictly increasing) in the outstanding amount. -/
theorem calculate_interest_not_strictMono :
    0 ≤ (Mortgage.mk 0 25 700 0 (.num 0)).rate ∧ (1 : ℚ) < 2 ∧
      ¬ calculate_interest (Mortgage.mk 0 25 700 0 (.num 0)) 1
          < calculate_interest (Mortgage.mk 0 25 700 0 (.num 0)) 2 := by
  norm_num [calculate_interest]

/-- C8 (amended): calculate_interest is outstanding * (rate / 12) for
every input, and it is strictly increasing in the outstanding amount
provided the rate is strictly positive. -/
theorem calculate_interest_spec (m : Mortgage) (o1 o2 : ℚ)
    (hr : 0 < m.rate) (h : o1 < o2) :
    calculate_interest m o1 = o1 * (m.rate / 12) ∧
      calculate_interest m o1 < calculate_interest m o2 := by
  refine ⟨rfl, ?_⟩
  rw [calculate_interest, calculate_interest]
  have h12 : (0 : ℚ) < m.rate / 12 := by positivity
  exact mul_lt_mul_of_pos_right h h12

/-- Witness for C8: a concrete strictly positive rate and a concrete
increase of the outstanding amount. -/
theorem calculate_interest_spec_witness :
    calculate_interest (Mortgage.mk 1 2 3 0 (.num 0)) 1 = 1 * ((1 : ℚ) / 12) ∧
      calculate_interest (Mortgage.mk 1 2 3 0 (.num 0)) 1
        < calculate_interest (Mortgage.mk 1 2 3 0 (.num 0)) 2 :=
  calculate_interest_spec (Mortgage.mk 1 2 3 0 (.num 0)) 1 2 (by norm_num) (by norm_num)

/-! ### C4 -/

/-- C4 counterexample: rate 0 and monthly repayment 1 satisfy
`monthly_repayment > 0` and interest-at-start-balance `< monthly_repayment`,
yet after the full 1-year term on balance 100000 the outstanding is still
99988 > 0: repay does not drive the balance to ≤ 0 within the term. -/
theorem repay_not_within_term :
    0 < (Mortgage.mk 0 1 1 0 (.num 0)).repayment ∧
      (100000 : ℚ) * ((Mortgage.mk 0 1 1 0 (.num 0)).rate / 12)
        < (Mortgage.mk 0 1 1 0 (.num 0)).repayment ∧
      0 < (repayState (Mortgage.mk 0 1 1 0 (.num 0)) 100000 0).out := by
  norm_num [repayState, runFrom_succ, runFrom_zero, stepPeriod,
    calculate_interest, calculate_repayment, calculate_overpay, anniversaries,
    preAccrualBalance, calculate_downpayment, sign_magnitude]

/-- Once the loop's balance is exhausted it stays exhausted: interest on a
non-positive balance is non-positive, and the next period breaks. -/
theorem runFrom_nonpos (m : Mortgage) (s : ℕ) (hr : 0 ≤ m.rate) :
    ∀ (n k : ℕ) (st : MState), (st.stopped = true → st.out ≤ 0) →
      st.out ≤ 0 → (runFrom m s k n st).out ≤ 0 := by
  have hr12 : (0 : ℚ) ≤ m.rate / 12 := by positivity
  intro n
  induction n with
  | zero =>
    intro k st _ h
    rw [runFrom_zero]
    exact h
  | succ n ih =>
    intro k st hinv h
    rw [runFrom_succ]
    by_cases hs : st.stopped = true
    · rw [stepPeriod_stopped m s k st hs, runFrom_stopped m s n (k + 1) st hs]
      exact h
    · have hs : st.stopped = false := by
        cases hb : st.stopped
        · rfl
        · exact absurd hb hs
      have hil : calculate_interest m st.out ≤ 0 :=
        mul_nonpos_iff.mpr (Or.inr ⟨h, hr12⟩)
      have hbr : ¬ st.out + calculate_interest m st.out > 0 := by linarith
      rw [stepPeriod_break m s k st hs hbr, runFrom_stopped m s n (k + 1) _ rfl]
      dsimp only
      linarith

/-- Each period either drops the balance by at least
`repayment - b1 * rate/12` (while it stays under the initial loop balance
`b1`), or the balance is already exhausted; iterated over `n` periods. -/
theorem runFrom_drain (m : Mortgage) (s : ℕ) (b1 : ℚ)
    (hrep : 0 < m.repayment) (hr : 0 ≤ m.rate) (hov : 0 ≤ m.overpay)
    (hd : b1 * (m.rate / 12) ≤ m.repayment) :
    ∀ (n k : ℕ) (st : MState) (c : ℚ), 0 ≤ c →
      (st.stopped = true → st.out ≤ 0) →
      (st.out ≤ b1 - c ∨ st.out ≤ 0) →
      ((runFrom m s k n st).out
          ≤ b1 - c - (n : ℚ) * (m.repayment - b1 * (m.rate / 12))
        ∨ (runFrom m s k n st).out ≤ 0) := by
  have hr12 : (0 : ℚ) ≤ m.rate / 12 := by positivity
  intro n
  induction n with
  | zero =>
    intro k st c hc hinv hcase
    rw [runFrom_zero]
    rcases hcase with hcase | hcase
    · exact Or.inl (by push_cast; linarith)
    · exact Or.inr hcase
  | succ n ih =>
    intro k st c hc hinv hcase
    rw [runFrom_succ]
    by_cases hs : st.stopped = true
    · rw [stepPeriod_stopped m s k st hs, runFrom_stopped m s n (k + 1) st hs]
      exact Or.inr (hinv hs)
    · have hs : st.stopped = false := by
        cases hb : st.stopped
        · rfl
        · exact absurd hb hs
      by_cases hout : st.out ≤ 0
      · have hil : calculate_interest m st.out ≤ 0 := by
          rw [calculate_interest]
          exact mul_nonpos_iff.mpr (Or.inr ⟨hout, hr12⟩)
        have hbr : ¬ st.out + calculate_interest m st.out > 0 := by linarith
        rw [stepPeriod_break m s k st hs hbr,
          runFrom_stopped m s n (k + 1) _ rfl]
        exact Or.inr (by dsimp only; linarith)
      · push_neg at hout
        have hie : calculate_interest m st.out = st.out * (m.rate / 12) := rfl
        have hi0 : 0 ≤ calculate_interest m st.out := by
          rw [hie]; positivity
        have hb1c : st.out ≤ b1 - c := by
          rcases hcase with hcase | hcase
          · exact hcase
          · exact absurd hcase (by linarith)
        have hib : calculate_interest m st.out ≤ b1 * (m.rate / 12) := by
          rw [hie]
          exact mul_le_mul_of_nonneg_right (by linarith) hr12
        have hpos : st.out + calculate_interest m st.out > 0 := by linarith
        rw [stepPeriod_live m s k st hs hpos]
        obtain ⟨hb0, hb2, hb3, hb4⟩ := calculate_repayment_bounds m s (s + k)
          (st.out + calculate_interest m st.out) hpos hrep.le hov
        by_cases hcase2 : m.repayment < st.out + calculate_interest m st.out
        · have hrge := hb3 hcase2
          have := ih (k + 1)
            ⟨st.out + calculate_interest m st.out
                - calculate_repayment m s (s + k)
                  (st.out + calculate_interest m st.out),
              st.ints + calculate_interest m st.out,
              st.reps + calculate_repayment m s (s + k)
                (st.out + calculate_interest m st.out),
              k, false⟩
            (c + (m.repayment - b1 * (m.rate / 12)))
            (by linarith) (by intro hcon; simp at hcon)
            (Or.inl (by dsimp only; linarith))
          rcases this with h | h
          · exact Or.inl (by push_cast at h ⊢; linarith)
          · exact Or.inr h
        · have hre := hb4 (le_of_not_lt hcase2)
          refine Or.inr (runFrom_nonpos m s hr n (k + 1) _
            (by intro hcon; simp at hcon) ?_)
          dsimp only
          rw [hre]
          linarith

/-- C4 (amended): with monthly repayment > 0, rate ≥ 0, overpay ≥ 0, a
non-negative post-downpayment balance whose monthly interest is below the
monthly repayment, and a term long enough that `12·term` times the
guaranteed per-period decrease covers the post-downpayment balance, the
loop drives the outstanding to ≤ 0 within the term. -/
theorem repay_terminates (m : Mortgage) (b : ℚ) (s : ℕ)
    (hrep : 0 < m.repayment) (hr : 0 ≤ m.rate) (hov : 0 ≤ m.overpay)
    (hb1 : 0 ≤ preAccrualBalance m b)
    (hd : preAccrualBalance m b * (m.rate / 12) < m.repayment)
    (hN : preAccrualBalance m b
        ≤ ((12 * m.duration : ℕ) : ℚ)
            * (m.repayment - preAccrualBalance m b * (m.rate / 12))) :
    (repayState m b s).out ≤ 0 := by
  have e : repayState m b s
      = runFrom m s 1 (12 * m.duration) ⟨preAccrualBalance m b, 0, 0, 0, false⟩ :=
    rfl
  have h := runFrom_drain m s (preAccrualBalance m b) hrep hr hov hd.le
    (12 * m.duration) 1 ⟨preAccrualBalance m b, 0, 0, 0, false⟩ 0
    (le_refl 0) (by intro hcon; simp at hcon) (Or.inl (by dsimp only; linarith))
  rcases h with h | h
  · rw [e]; linarith
  · rw [e]; exact h

/-- Witness for C4: rate 0, repayment 10, term 1 year, balance 100: the
guaranteed decrease is 10 per period and 12 * 10 ≥ 100, so the loop ends
with the balance at 0. -/
theorem repay_terminates_witness :
    (repayState ⟨0, 1, 10, 0, .num 0⟩ 100 0).out ≤ 0 :=
  repay_terminates ⟨0, 1, 10, 0, .num 0⟩ 100 0 (by norm_num) (by norm_num)
    (by norm_num)
    (by norm_num [preAccrualBalance, calculate_downpayment, sign_magnitude])
    (by norm_num [preAccrualBalance, calculate_downpayment, sign_magnitude])
    (by norm_num [preAccrualBalance, calculate_downpayment, sign_magnitude])

/-! ### C10 -/

/-- C10: for term ≥ 1 repay returns, and the returned end date is the
last monthly date actually processed by the loop (start plus an offset
between 1 and 12·term); for term 0 (modelling term_years ≤ 0) the monthly
schedule is empty, no loop iteration runs, the loop variable that holds
the date is never bound, and the call fails (UnboundLocalError at the
return, modelled as `none`) rather than returning a value. -/
theorem repay_end_date (m : Mortgage) (b : ℚ) (s : ℕ) :
    (1 ≤ m.duration →
      1 ≤ (repayState m b s).periods ∧
        (repayState m b s).periods ≤ 12 * m.duration ∧
        repay m b s
          = some ((repayState m b s).ints,
              (repayState m b s).reps + calculate_downpayment m b,
              s + (repayState m b s).periods)) ∧
      (m.duration = 0 → repay m b s = none) := by
  constructor
  · intro hd
    have e : repayState m b s
        = runFrom m s 1 (12 * m.duration) ⟨preAccrualBalance m b, 0, 0, 0, false⟩ :=
      rfl
    obtain ⟨h1, h2⟩ := runFrom_periods_bound m s (12 * m.duration) 1
      ⟨preAccrualBalance m b, 0, 0, 0, false⟩ (by norm_num)
    have hge : 1 ≤ (repayState m b s).periods := by
      rw [e]; exact h2 rfl (by omega)
    have hle : (repayState m b s).periods ≤ 12 * m.duration := by
      rw [e]; omega
    have hne : ¬ (repayState m b s).periods = 0 := by omega
    refine ⟨hge, hle, ?_⟩
    simp only [repay]
    rw [if_neg hne]
  · intro hd
    have hp : (repayState m b s).periods = 0 := by
      simp [repayState, hd, runFrom_zero]
    simp only [repay]
    rw [if_pos hp]

/-- Witness for C10: a 1-year instrument returns its last processed date;
a 0-year instrument fails. -/
theorem repay_end_date_witness :
    (1 ≤ (repayState ⟨0, 1, 10, 0, .num 0⟩ 100 0).periods ∧
        (repayState ⟨0, 1, 10, 0, .num 0⟩ 100 0).periods ≤ 12 * 1 ∧
        repay ⟨0, 1, 10, 0, .num 0⟩ 100 0
          = some ((repayState ⟨0, 1, 10, 0, .num 0⟩ 100 0).ints,
              (repayState ⟨0, 1, 10, 0, .num 0⟩ 100 0).reps
                + calculate_downpayment ⟨0, 1, 10, 0, .num 0⟩ 100,
              0 + (repayState ⟨0, 1, 10, 0, .num 0⟩ 100 0).periods)) ∧
      repay ⟨0, 0, 10, 0, .num 3⟩ 1000 5 = none :=
  ⟨(repay_end_date ⟨0, 1, 10, 0, .num 0⟩ 100 0).1 (by norm_num),
    (repay_end_date ⟨0, 0, 10, 0, .num 3⟩ 1000 5).2 rfl⟩

/-! ### C5 -/

/-- C5 counterexample: a capital-release instrument (downpayment -5000,
rate 0, nominal repayment 0, 1-year term) raises the loan balance from
principal 100000 to 105000 after processing. -/
theorem payoff_exceeds_principal :
    payoffGo 100000 0 [⟨0, 1, 0, 0, .num (-5000)⟩] = some 105000 ∧
      (100000 : ℚ) < 105000 := by
  refine ⟨?_, by norm_num⟩
  norm_num [payoffGo, repay, repayState, runFrom_succ, runFrom_zero, stepPeriod,
    calculate_interest, calculate_repayment, calculate_overpay, anniversaries,
    preAccrualBalance, calculate_downpayment, sign_magnitude]

/-- C5 (amended): when every instrument processed by payoff returns a
repaid total (downpayment included) at least its interest total, the
outstanding balance produced by the loop never exceeds the starting
principal. -/
theorem payoff_le_principal (b : ℚ) (s : ℕ) (ms : List Mortgage) (out : ℚ)
    (hok : payoffNetOk b s ms = true) (hgo : payoffGo b s ms = some out) :
    out ≤ b := by
  induction ms generalizing b s with
  | nil =>
    rw [payoffGo] at hgo
    have : b = out := by injection hgo
    linarith
  | cons m ms ih =>
    rw [payoffNetOk] at hok
    rw [payoffGo] at hgo
    cases hrep : repay m b s with
    | none =>
      rw [hrep] at hok
      simp at hok
    | some t =>
      obtain ⟨inc, dec, cur⟩ := t
      rw [hrep] at hok hgo
      simp only [Bool.and_eq_true, decide_eq_true_eq] at hok hgo
      obtain ⟨hnet, hrest⟩ := hok
      by_cases hb1 : b - (dec - inc) > 0
      · rw [if_pos hb1] at hgo hrest
        have := ih (b - (dec - inc)) cur hrest hgo
        linarith
      · rw [if_neg hb1] at hgo
        have : b - (dec - inc) = out := by injection hgo
        linarith

/-- Witness for C5: one rate-0 instrument with repayment 1 on principal
100 nets 12 of repayment against 0 interest, ending at 88 ≤ 100. -/
theorem payoff_le_principal_witness :
    payoffNetOk 100 0 [⟨0, 1, 1, 0, .num 0⟩] = true ∧
      payoffGo 100 0 [⟨0, 1, 1, 0, .num 0⟩] = some 88 ∧ (88 : ℚ) ≤ 100 :=
  ⟨by norm_num [payoffNetOk, repay, repayState, runFrom_succ, runFrom_zero,
      stepPeriod, calculate_interest, calculate_repayment, calculate_overpay,
      anniversaries, preAccrualBalance, calculate_downpayment, sign_magnitude],
    by norm_num [payoffGo, repay, repayState, runFrom_succ, runFrom_zero,
      stepPeriod, calculate_interest, calculate_repayment, calculate_overpay,
      anniversaries, preAccrualBalance, calculate_downpayment, sign_magnitude],
    payoff_le_principal 100 0 [⟨0, 1, 1, 0, .num 0⟩] 88
      (by norm_num [payoffNetOk, repay, repayState, runFrom_succ, runFrom_zero,
        stepPeriod, calculate_interest, calculate_repayment, calculate_overpay,
        anniversaries, preAccrualBalance, calculate_downpayment, sign_magnitude])
      (by norm_num [payoffGo, repay, repayState, runFrom_succ, runFrom_zero,
        stepPeriod, calculate_interest, calculate_repayment, calculate_overpay,
        anniversaries, preAccrualBalance, calculate_downpayment, sign_magnitude])⟩

end Borrow
